import Mathlib

/-!
Verification of the lazy query-construction core of the dagger Python SDK
(`sdk/python/src/dagger/client/_core.py`).

The embedding models the Python values flowing through the builder as a
`Value` type, selection nodes as `Field`, and the query `Context` as the
ordered chain of selection nodes.  External collaborators (the gql session,
the GraphQL schema binding, the cattrs converter, the httpx transport) are
modelled at their interface: the transport's possible failures become an
explicit `TransportOutcome` input to `execute`, and the converter is modelled
on the scalar/nullable cases the verified properties exercise.

Python's `is`/`is not` comparisons against declared argument defaults are
modelled as structural (in)equality on `Value`: the defaults the generated
accessor layer passes are the `MISSING` sentinel, `None`, booleans and
interned scalar literals, on which CPython identity coincides with equality.
-/

set_option maxRecDepth 8192

namespace DaggerCore

/-- An atomic (non-container) Python value: `None`, strings, ints, booleans,
the `dataclasses.MISSING` sentinel, and generated `Type` object handles
matched by `is_id_type`.  A handle carries the scalar identifier that
executing its own "fetch my id" chain (`await v.id()`) returns; that
sub-execution is a round trip through the external session. -/
inductive Atom where
  | null
  | str (s : String)
  | int (n : Int)
  | bool (b : Bool)
  | idHandle (id : String)
  | missing
  deriving DecidableEq, Repr

/-- A Python value as it appears in argument maps and response payloads.
`input` is a dataclass instance matched by `InputHint` (a structured input
object); `obj` is a plain `dict` (modelled as an association list in
insertion order). -/
inductive Value where
  | atom (a : Atom)
  | list (vs : List Value)
  | obj (fields : List (String × Value))
  | input (fields : List (String × Value))

/-- Abbreviation for the `None` value. -/
def Value.null : Value := .atom .null

/-- Abbreviation for a string value. -/
def Value.str (s : String) : Value := .atom (.str s)

/-- Boolean-valued structural equality on `Value`. -/
def Value.beq : Value → Value → Bool
  | .atom a, .atom b => a == b
  | .list as, .list bs => goL as bs
  | .obj as, .obj bs => goK as bs
  | .input as, .input bs => goK as bs
  | _, _ => false
where
  goL : List Value → List Value → Bool
    | [], [] => true
    | a :: as, b :: bs => Value.beq a b && goL as bs
    | _, _ => false
  goK : List (String × Value) → List (String × Value) → Bool
    | [], [] => true
    | (k, a) :: as, (k2, b) :: bs => k == k2 && Value.beq a b && goK as bs
    | _, _ => false

mutual
theorem Value.beq_iff : ∀ a b : Value, Value.beq a b = true ↔ a = b
  | .atom a, .atom b => by simp [Value.beq]
  | .atom _, .list _ => by simp [Value.beq]
  | .atom _, .obj _ => by simp [Value.beq]
  | .atom _, .input _ => by simp [Value.beq]
  | .list _, .atom _ => by simp [Value.beq]
  | .list as, .list bs => by
      simp only [Value.beq, Value.beq_goL_iff as bs, Value.list.injEq]
  | .list _, .obj _ => by simp [Value.beq]
  | .list _, .input _ => by simp [Value.beq]
  | .obj _, .atom _ => by simp [Value.beq]
  | .obj _, .list _ => by simp [Value.beq]
  | .obj as, .obj bs => by
      simp only [Value.beq, Value.beq_goK_iff as bs, Value.obj.injEq]
  | .obj _, .input _ => by simp [Value.beq]
  | .input _, .atom _ => by simp [Value.beq]
  | .input _, .list _ => by simp [Value.beq]
  | .input _, .obj _ => by simp [Value.beq]
  | .input as, .input bs => by
      simp only [Value.beq, Value.beq_goK_iff as bs, Value.input.injEq]

theorem Value.beq_goL_iff : ∀ as bs : List Value, Value.beq.goL as bs = true ↔ as = bs
  | [], [] => by simp [Value.beq.goL]
  | [], _ :: _ => by simp [Value.beq.goL]
  | _ :: _, [] => by simp [Value.beq.goL]
  | a :: as, b :: bs => by
      simp only [Value.beq.goL, Bool.and_eq_true, Value.beq_iff a b,
        Value.beq_goL_iff as bs, List.cons.injEq]

theorem Value.beq_goK_iff :
    ∀ as bs : List (String × Value), Value.beq.goK as bs = true ↔ as = bs
  | [], [] => by simp [Value.beq.goK]
  | [], _ :: _ => by simp [Value.beq.goK]
  | _ :: _, [] => by simp [Value.beq.goK]
  | (k, a) :: as, (k2, b) :: bs => by
      simp only [Value.beq.goK, Bool.and_eq_true, Value.beq_iff a b,
        Value.beq_goK_iff as bs, List.cons.injEq, Prod.mk.injEq, beq_iff_eq,
        and_assoc]
end

instance : DecidableEq Value := fun a b => decidable_of_iff _ (Value.beq_iff a b)

/-- `dataclasses.asdict`: recursively convert dataclass instances, and the
dicts and lists holding them, into plain data; atoms pass through. -/
def asdictV : Value → Value
  | .input fs => .obj (goK fs)
  | .obj fs => .obj (goK fs)
  | .list vs => .list (goL vs)
  | .atom a => .atom a
where
  goL : List Value → List Value
    | [] => []
    | v :: vs => asdictV v :: goL vs
  goK : List (String × Value) → List (String × Value)
    | [] => []
    | (k, v) :: fs => (k, asdictV v) :: goK fs

/-- `InputHint.is_bearable`: the value is a structured input dataclass. -/
def isInput : Value → Bool
  | .input _ => true
  | _ => false

/-- `InputSeqHint.is_bearable`: the value is a sequence of structured input
dataclasses. -/
def isInputSeq : Value → Bool
  | .list vs => vs.all isInput
  | _ => false

/-- `Arg`: a GraphQL argument name, its value, and its declared default
(the `MISSING` sentinel when no default was provided). -/
structure Arg where
  name : String
  value : Value
  default : Value := .atom .missing
  deriving DecidableEq

/-- `Arg.as_input`: a structured input value is flattened to a field mapping,
a sequence of structured inputs is flattened element-wise, anything else
passes through unchanged. -/
def Arg.as_input (a : Arg) : Value :=
  if isInput a.value then asdictV a.value
  else if isInputSeq a.value then
    match a.value with
    | .list vs => .list (vs.map asdictV)
    | v => v
  else a.value

/-- `Field`: one selection node — defining type name, field name, argument
map, and children map keyed by output alias.  Argument and children maps are
Python dicts, modelled as association lists in insertion order. -/
inductive Field where
  | mk (type_name : String) (name : String) (args : List (String × Value))
      (children : List (String × Field))

def Field.type_name : Field → String
  | .mk t _ _ _ => t

def Field.name : Field → String
  | .mk _ n _ _ => n

def Field.args : Field → List (String × Value)
  | .mk _ _ a _ => a

def Field.children : Field → List (String × Field)
  | .mk _ _ _ c => c

/-- `Field.add_child`: returns a copy of the node whose children map is
replaced (not merged) by the single entry keyed by the child's field name. -/
def Field.add_child (f : Field) (child : Field) : Field :=
  .mk f.type_name f.name f.args [(child.name, child)]

/-- Rendering of a `Value` into GraphQL argument-literal syntax.  This models
the external gql/graphql-core serializer that `to_dsl` hands arguments to; it
is only used to state what document a built selection requests. -/
def Value.render : Value → String
  | .atom .null => "null"
  | .atom (.str s) => "\"" ++ s ++ "\""
  | .atom (.int n) => toString n
  | .atom (.bool b) => if b then "true" else "false"
  | .atom (.idHandle id) => "\"" ++ id ++ "\""
  | .atom .missing => "MISSING"
  | .list vs => "[" ++ String.intercalate "," (goL vs) ++ "]"
  | .obj fs => "\x7b" ++ String.intercalate "," (goK fs) ++ "\x7d"
  | .input fs => "\x7b" ++ String.intercalate "," (goK fs) ++ "\x7d"
where
  goL : List Value → List String
    | [] => []
    | v :: vs => Value.render v :: goL vs
  goK : List (String × Value) → List String
    | [] => []
    | (k, v) :: fs => (k ++ ":" ++ Value.render v) :: goK fs

/-- `Field.to_dsl`, observed through the external DSL's document rendering:
look the field up on its defining type, apply the encoded arguments, and
attach the sub-selection built from the children (an entry whose alias equals
the wire field name renders without an alias prefix). -/
def Field.render : Field → String
  | .mk _ name args children =>
      name
        ++ (if args.isEmpty then ""
            else "(" ++ String.intercalate "," (goArgs args) ++ ")")
        ++ (if children.isEmpty then ""
            else "\x7b" ++ String.intercalate " " (goCh children) ++ "\x7d")
where
  goArgs : List (String × Value) → List String
    | [] => []
    | (k, v) :: rest => (k ++ ":" ++ v.render) :: goArgs rest
  goCh : List (String × Field) → List String
    | [] => []
    | (alias_, f) :: rest =>
        ((if alias_ = f.name then "" else alias_ ++ ":") ++ Field.render f)
          :: goCh rest

/-- The failures this core raises.  `invalidQuery` is dagger's
`InvalidQueryError` (the spec's ConstructionError / Validation kinds),
`executeTimeout` its `ExecuteTimeoutError` (Timeout), `transport` its
`TransportError`, `queryError` a `QueryError` derived from a structured
error payload, `rawQueryError` the transport's `TransportQueryError`
re-raised unchanged, `typeError` a Python `TypeError`, `keyError` a Python
`KeyError` escaping undomesticated, and `structureError` a failure of the
external converter. -/
inductive DaggerError where
  | invalidQuery (msg : String)
  | executeTimeout (msg : String)
  | transport (msg : String)
  | queryError (msg : String)
  | rawQueryError (raw : String)
  | typeError (msg : String)
  | keyError (key : String)
  | structureError (msg : String)
  deriving DecidableEq, Repr

/-- `Context`: the ordered chain of selection nodes.  The session, schema and
converter handles it also carries are opaque external collaborators and are
not part of the pure state. -/
structure Context where
  selections : List Field

/-- The argument map built by `select`'s dict comprehension: keep the
arguments whose value differs from their declared default (Python
`is not` against the sentinel and immutable scalar defaults, modelled as
structural inequality), encoded through `as_input`. -/
def encodeArgs (args : List Arg) : List (String × Value) :=
  (args.filter fun a => a.value ≠ a.default).map fun a => (a.name, a.as_input)

/-- `Context.select`: encode the arguments, build a new node, append it to a
copy of the node sequence, and return a new Context. -/
def Context.select (c : Context) (type_name field_name : String)
    (args : List Arg) : Context :=
  { c with selections := c.selections ++ [.mk type_name field_name (encodeArgs args) []] }

/-- `Context.select_multiple`: pop the last node from a copied sequence,
replace its children with one leaf node per entry of the field map (output
alias ↦ wire field name, no arguments, no children), and re-append it.
`deque.pop` on an empty sequence raises `IndexError`, modelled as `none`. -/
def Context.select_multiple (c : Context) (type_name : String)
    (fields : List (String × String)) : Option Context :=
  match c.selections.getLast? with
  | none => none
  | some parent =>
      let field_ : Field :=
        .mk parent.type_name parent.name parent.args
          (fields.map fun kv => (kv.1, Field.mk type_name kv.2 [] []))
      some { c with selections := c.selections.dropLast ++ [field_] }

/-- `Context.build`: fail with `InvalidQueryError` when nothing was selected;
otherwise right-fold the node sequence (`functools.reduce` of `add_child`
over the reversed sequence) into a single root node.  Rendering the root to
the wire (`to_dsl`) is observed through `Field.render`. -/
def Context.build (c : Context) : Except DaggerError Field :=
  match c.selections.reverse with
  | [] => .error (.invalidQuery "No field has been selected")
  | x :: xs => .ok (xs.foldl (fun child f => f.add_child child) x)

/-- The expected return type handed to `get_value`/`execute`, as seen by
`beartype.door.TypeHint` and the converter. -/
inductive RetTy where
  | string
  | int
  | bool
  | optional (t : RetTy)
  | objType (name : String)
  deriving DecidableEq, Repr

/-- `TypeHint(return_type).is_bearable(None)`: only an explicitly optional
type accepts a null value. -/
def RetTy.acceptsNull : RetTy → Bool
  | .optional _ => true
  | _ => false

/-- The external cattrs converter (`converter.structure`), modelled on the
scalar and nullable cases the verified properties exercise: a null
structures into an optional type as null, scalars structure into their own
type unchanged, anything else is a converter failure. -/
def convStructure : Value → RetTy → Except DaggerError Value
  | .atom .null, .optional _ => .ok (.atom .null)
  | v, .optional t => convStructure v t
  | .atom (.str s), .string => .ok (.atom (.str s))
  | .atom (.int n), .int => .ok (.atom (.int n))
  | .atom (.bool b), .bool => .ok (.atom (.bool b))
  | _, _ => .error (.structureError "cannot structure value")

/-- The response walk of `get_value`: for each selection node in order, stop
descending when the current value is not a dict (`break`), otherwise index
the dict with the node's field name — a mapping that lacks the key raises an
uncaught `KeyError`. -/
def walkValue : List Field → Value → Except DaggerError Value
  | [], v => .ok v
  | f :: rest, v =>
      match v with
      | .obj kvs =>
          match kvs.lookup f.name with
          | some v2 => walkValue rest v2
          | none => .error (.keyError f.name)
      | _ => .ok v

/-- `Context.get_value`: walk the response along the chain's node names, fail
with `InvalidQueryError` when the walked value is null and the expected type
does not accept null, otherwise structure the value through the converter. -/
def Context.get_value (c : Context) (value : Value) (return_type : RetTy) :
    Except DaggerError Value :=
  match walkValue c.selections value with
  | .error e => .error e
  | .ok v =>
      if v = .atom .null ∧ return_type.acceptsNull = false then
        .error (.invalidQuery
          "Required field got a null response. Check if parent fields are valid.")
      else convStructure v return_type

/-- `await v.id()` for a handle: executing the handle's own minimal
"fetch my identifier" chain yields its scalar identifier (the round trip
itself goes through the external session). -/
def resolveElem : Value → Value
  | .atom (.idHandle id) => .atom (.str id)
  | v => v

/-- `is_id_type` (from the guards module, outside this core): the value is a
generated object handle. -/
def isIdHandle : Value → Bool
  | .atom (.idHandle _) => true
  | _ => false

/-- One argument slot after `resolve_ids`.  Modelled from the spec for the
guard `is_id_type_sequence` (the guards module is outside this core):
sequences containing handles have each handle element replaced at its own
index, a bare handle is replaced by its identifier, and everything else is
left alone. -/
def resolveValue : Value → Value
  | .list vs => .list (vs.map resolveElem)
  | v => resolveElem v

/-- Argument maps of one node after `resolve_ids`. -/
def Field.resolveArgs : Field → Field
  | .mk t n args ch => .mk t n (args.map fun kv => (kv.1, resolveValue kv.2)) ch

/-- `Context.resolve_ids`: replace handle-valued arguments (and handle
elements of sequence-valued arguments) on every node of the chain with their
scalar identifiers.  The source launches the per-argument resolutions
concurrently in one task group and writes each result back in place; the
pure model records the state after the task group completes. -/
def Context.resolve_ids (c : Context) : Context :=
  { c with selections := c.selections.map Field.resolveArgs }

/-- The possible outcomes of `session.execute(query)`, the transport
round trip of the external gql session: a response payload, or one of the
distinguishable failures `execute` maps to domain errors.
`queryError` carries the result of `_query_error_from_transport` (an
error derived from the structured payload when recognizable, modelled as
`derived`) together with the raw transport error. -/
inductive TransportOutcome where
  | success (payload : Value)
  | timeout
  | requestError (cause : String)
  | closed
  | protocolError (cause : String)
  | serverError (cause : String)
  | queryError (derived : Option String) (raw : String)

/-- `Context.execute`: resolve ids, compile the chain to a document, send it
through the session (whose outcome is the `outcome` argument), map transport
failures to domain errors, and decode the payload when a return type is
expected. -/
def Context.execute (c : Context) (outcome : TransportOutcome)
    (return_type : Option RetTy) : Except DaggerError (Option Value) :=
  let cr := c.resolve_ids
  match cr.build with
  | .error e => .error e
  | .ok _root =>
      match outcome with
      | .timeout => .error (.executeTimeout
          ("Request timed out. Try setting a higher value in \x27execute_timeout\x27 "
            ++ "config for this `dagger.Connection()`."))
      | .requestError cause => .error (.transport ("Failed to make request: " ++ cause))
      | .closed => .error (.transport
          ("Connection to engine has been closed. Make sure you\x27re "
            ++ "calling the API within a `dagger.Connection()` context."))
      | .protocolError cause => .error (.transport
          ("Unexpected response from engine: " ++ cause))
      | .serverError cause => .error (.transport
          ("Unexpected response from engine: " ++ cause))
      | .queryError derived raw =>
          match derived with
          | some d => .error (.queryError d)
          | none => .error (.rawQueryError raw)
      | .success payload =>
          match return_type with
          | some t => (cr.get_value payload t).map some
          | none => .ok none

/-- A generated object type as `Root._get_object_instance` sees it:
whether it passes `is_id_type_subclass`, the name of its declared id scalar
type (`cls._id_type()`), and its load-by-id field on Query
(`cls._from_id_query_field()`). -/
structure TargetType where
  name : String
  supports_id : Bool
  id_type : String
  from_id_query_field : String

/-- The identifier argument of `Root._get_object_instance`: either an
instance of an id scalar type, or a raw string. -/
inductive IdArg where
  | scalar (typeName : String) (val : String)
  | rawString (val : String)
  deriving DecidableEq, Repr

/-- `type(id_) is not cls._id_type()`. -/
def IdArg.typeMismatch (id_ : IdArg) (cls : TargetType) : Bool :=
  match id_ with
  | .scalar t _ => t != cls.id_type
  | .rawString _ => true

/-- Modelled from the spec: `isinstance(id_, str)` distinguishes a raw
string identifier from a typed scalar (the `Scalar` base class lives outside
this core; the spec reads the check as "matches the declared id type, or is
a raw string"). -/
def IdArg.isRawString : IdArg → Bool
  | .rawString _ => true
  | _ => false

def IdArg.toValue : IdArg → Value
  | .scalar _ v => .atom (.str v)
  | .rawString v => .atom (.str v)

/-- `type(id_)` as it prints in the mismatch message. -/
def IdArg.typeName : IdArg → String
  | .scalar t _ => t
  | .rawString _ => "str"

/-- `Root._get_object_instance`: validate that the target type supports
id-based construction and that the identifier's type matches (or is a raw
string), then return a handle of the target type bound to a fresh selection
on the load-by-id field with the identifier as its argument.  `Root`'s own
context is freshly scoped (`selections = empty`), and `self._select` (from
the generated base class outside this core, modelled from the spec) extends
it with one selection on the root type. -/
def Root.get_object_instance (cls : TargetType) (id_ : IdArg) :
    Except DaggerError (TargetType × Context) :=
  if cls.supports_id = false then
    .error (.typeError ("Unsupported type \x27" ++ cls.name ++ "\x27"))
  else if id_.typeMismatch cls ∧ id_.isRawString = false then
    .error (.typeError ("Expected id type \x27" ++ cls.id_type
      ++ "\x27, got \x27" ++ id_.typeName ++ "\x27"))
  else
    .ok (cls, Context.select ⟨[]⟩ "Query" cls.from_id_query_field
      [{ name := "id", value := id_.toValue }])

/-- A single `select` call, for stating properties of call sequences. -/
structure SelectCall where
  type_name : String
  field_name : String
  args : List Arg

/-- Apply a sequence of `select` calls in order. -/
def applySelects (c : Context) : List SelectCall → Context
  | [] => c
  | s :: rest => applySelects (c.select s.type_name s.field_name s.args) rest

/-- The concrete chain of the end-to-end scenario:
`select("Query","container",{})`, then
`select("Container","from",{image:"alpine"})`, then
`select("Container","id",{})` from a root context. -/
def containerIdChain : Context :=
  ((Context.mk []).select "Query" "container" []
    |>.select "Container" "from" [{ name := "image", value := .str "alpine" }]
    |>.select "Container" "id" [])

/-! ### Helper lemmas -/

theorem select_selections (c : Context) (t f : String) (args : List Arg) :
    (c.select t f args).selections
      = c.selections ++ [Field.mk t f (encodeArgs args) []] := rfl

theorem applySelects_length (calls : List SelectCall) : ∀ c : Context,
    (applySelects c calls).selections.length = c.selections.length + calls.length := by
  induction calls with
  | nil => intro c; simp [applySelects]
  | cons s rest ih =>
      intro c
      simp [applySelects, ih, select_selections]
      omega

theorem build_ok_of_ne_nil (c : Context) (h : c.selections ≠ []) :
    ∃ root, c.build = .ok root := by
  unfold Context.build
  match hr : c.selections.reverse with
  | [] => exact absurd (List.reverse_eq_nil_iff.mp hr) h
  | x :: xs => exact ⟨_, rfl⟩

/-- A walk from a non-dict value immediately stops and returns it. -/
theorem walkValue_not_obj (rest : List Field) (v : Value)
    (h : ∀ fs, v ≠ .obj fs) : walkValue rest v = .ok v := by
  cases rest with
  | nil => rfl
  | cons f fs =>
      cases v with
      | obj kvs => exact absurd rfl (h kvs)
      | atom a => rfl
      | list vs => rfl
      | input fields => rfl

/-- The response walk over a concatenated chain is the composition of the
walks: stopping early at a non-dict value commutes with the split. -/
theorem walkValue_append (pre rest : List Field) : ∀ v : Value,
    walkValue (pre ++ rest) v = (walkValue pre v).bind (walkValue rest) := by
  induction pre with
  | nil => intro v; simp [walkValue, Except.bind]
  | cons f pre ih =>
      intro v
      cases v with
      | obj kvs =>
          simp only [List.cons_append, walkValue]
          cases kvs.lookup f.name with
          | some v2 => exact ih v2
          | none => rfl
      | atom a =>
          simp only [List.cons_append, walkValue, Except.bind]
          exact (walkValue_not_obj rest _ (fun fs h => by cases h)).symm
      | list vs =>
          simp only [List.cons_append, walkValue, Except.bind]
          exact (walkValue_not_obj rest _ (fun fs h => by cases h)).symm
      | input fields =>
          simp only [List.cons_append, walkValue, Except.bind]
          exact (walkValue_not_obj rest _ (fun fs h => by cases h)).symm

/-! ### Claims -/

/-- C1: each `select` returns a new Context whose node sequence is one node
longer (so `N` selects from the root context give length `N`, by the first
conjunct at `c = ⟨[]⟩`), and the originating Context is untouched: the
derived Context of `select` extends the originator's node sequence, which
survives unchanged as its prefix, and a `select_multiple`-derived Context
changes nothing outside the last node.  The receiver itself is never
mutated: both operations copy the node sequence (`selections.copy()`)
and build a fresh Context, which the pure embedding reflects by
construction. -/
theorem select_fork_nondestructive (c : Context) (calls : List SelectCall)
    (t f : String) (args : List Arg) (fs : List (String × String)) :
    (applySelects c calls).selections.length = c.selections.length + calls.length
    ∧ (c.select t f args).selections.length = c.selections.length + 1
    ∧ (c.select t f args).selections
        = c.selections ++ [Field.mk t f (encodeArgs args) []]
    ∧ (c.select t f args).selections.take c.selections.length = c.selections
    ∧ (∀ c2, c.select_multiple t fs = some c2 →
        c2.selections.length = c.selections.length
        ∧ c2.selections.dropLast = c.selections.dropLast) := by
  refine ⟨applySelects_length calls c, by simp [select_selections], rfl,
    by simp [select_selections], ?_⟩
  intro c2 h2
  unfold Context.select_multiple at h2
  cases hl : c.selections.getLast? with
  | none => rw [hl] at h2; cases h2
  | some parent =>
      rw [hl] at h2
      cases h2
      have hne : c.selections ≠ [] := by
        intro h; rw [h] at hl; cases hl
      constructor
      · simp only [List.length_append, List.length_dropLast, List.length_cons,
          List.length_nil]
        have := List.length_pos.mpr hne
        omega
      · rw [List.dropLast_concat]

/-- C2 witness-style end-to-end scenario: building the chain
`container → from(image:"alpine") → id` right-folds the three nodes so each
is the single child of its predecessor, the rendered document requests
`container{from(image:"alpine"){id}}`, and `get_value` on the payload
`{"container":{"from":{"id":"abc123"}}}` with expected type string walks the
three node names in order and returns `"abc123"`. -/
theorem container_chain_end_to_end :
    containerIdChain.build
      = .ok (.mk "Query" "container" []
          [("from", .mk "Container" "from" [("image", .str "alpine")]
            [("id", .mk "Container" "id" [] [])])])
    ∧ containerIdChain.build.map Field.render
      = .ok "container\x7bfrom(image:\"alpine\")\x7bid\x7d\x7d"
    ∧ containerIdChain.get_value
        (.obj [("container", .obj [("from", .obj [("id", .str "abc123")])])])
        .string
      = .ok (.str "abc123") :=
  ⟨rfl, rfl, rfl⟩

/-- C4: `build` fails, with `InvalidQueryError "No field has been selected"`,
exactly when the node sequence is empty; on every non-empty node sequence it
succeeds with a single root node. -/
theorem build_empty_iff (c : Context) :
    (c.build = .error (.invalidQuery "No field has been selected")
      ↔ c.selections = [])
    ∧ (c.selections ≠ [] → ∃ root, c.build = .ok root) := by
  constructor
  · constructor
    · intro h
      by_contra hne
      obtain ⟨root, hr⟩ := build_ok_of_ne_nil c hne
      rw [hr] at h
      cases h
    · intro h
      unfold Context.build
      rw [h]
      rfl
  · exact build_ok_of_ne_nil c

/-- C4 witness: at a concrete one-node chain the build succeeds, and at the
empty chain it fails with the construction error. -/
theorem build_empty_iff_witness :
    (∃ root, (Context.mk [Field.mk "Query" "container" [] []]).build = .ok root)
    ∧ ((Context.mk []).build
        = .error (.invalidQuery "No field has been selected")) :=
  ⟨(build_empty_iff ⟨[Field.mk "Query" "container" [] []]⟩).2 (by simp),
    (build_empty_iff ⟨[]⟩).1.mpr rfl⟩

/-- C1 witness: a `select_multiple` fork of the concrete three-node chain
keeps its length and everything below the last node. -/
theorem select_fork_nondestructive_witness :
    ∃ c2, containerIdChain.select_multiple "Container" [("a", "stdout")] = some c2
      ∧ c2.selections.length = containerIdChain.selections.length
      ∧ c2.selections.dropLast = containerIdChain.selections.dropLast := by
  refine ⟨Context.mk [Field.mk "Query" "container" [] [],
      Field.mk "Container" "from" [("image", .str "alpine")] [],
      Field.mk "Container" "id" [] [("a", Field.mk "Container" "stdout" [] [])]],
    by rfl, ?_⟩
  exact (select_fork_nondestructive containerIdChain [] "Container" "y" []
    [("a", "stdout")]).2.2.2.2 _ (by rfl)

/-- C3: the argument map a `select` call compiles is exactly the arguments
whose value differs from their declared default, each encoded through
`as_input`; an argument equal to its default is omitted regardless of its
value, and encoding leaves plain scalar values unchanged while flattening
structured inputs to field mappings and sequences of structured inputs
element-wise. -/
theorem select_includes_iff_differs (c : Context) (t f : String)
    (args : List Arg) (a : Arg) (ha : a ∈ args)
    (hnd : (args.map Arg.name).Nodup) :
    ((c.select t f args).selections.getLast?.map Field.args
        = some (encodeArgs args))
    ∧ ((a.name, a.as_input) ∈ encodeArgs args ↔ a.value ≠ a.default)
    ∧ (∀ (n : String) (at_ : Atom) (d : Value),
        (Arg.mk n (.atom at_) d).as_input = .atom at_)
    ∧ (∀ (n : String) (fs2 : List (String × Value)) (d : Value),
        (Arg.mk n (.input fs2) d).as_input = asdictV (.input fs2))
    ∧ (∀ (n : String) (vs : List Value) (d : Value), vs.all isInput = true →
        (Arg.mk n (.list vs) d).as_input = .list (vs.map asdictV)) := by
  refine ⟨?_, ⟨?_, ?_⟩, ?_, ?_, ?_⟩
  · rw [select_selections, List.getLast?_concat]
    rfl
  · intro hmem
    obtain ⟨b, hbf, hbeq⟩ := List.mem_map.mp hmem
    obtain ⟨hb, hbv⟩ := List.mem_filter.mp hbf
    have hname : b.name = a.name := congrArg Prod.fst hbeq
    have : b = a := List.inj_on_of_nodup_map hnd hb ha hname
    subst this
    simpa using hbv
  · intro hne
    exact List.mem_map.mpr ⟨a, List.mem_filter.mpr ⟨ha, by simpa using hne⟩, rfl⟩
  · intro n at_ d
    cases at_ <;> rfl
  · intro n fs2 d
    rfl
  · intro n vs d hall
    cases vs with
    | nil => rfl
    | cons v vs =>
        cases v with
        | input fields => simp [Arg.as_input, isInput, isInputSeq, hall]
        | atom a2 => simp [List.all_cons, isInput] at hall
        | list l => simp [List.all_cons, isInput] at hall
        | obj fields => simp [List.all_cons, isInput] at hall

/-- C3 witness: with two concretely named arguments, the one equal to its
declared default is omitted from the compiled map and the one differing from
its (missing) default is kept. -/
theorem select_includes_iff_differs_witness :
    (("x", Value.str "a")
        ∉ encodeArgs [⟨"x", .str "a", .str "a"⟩, ⟨"y", .str "b", .atom .missing⟩])
    ∧ (("y", Value.str "b")
        ∈ encodeArgs [⟨"x", .str "a", .str "a"⟩, ⟨"y", .str "b", .atom .missing⟩]) := by
  constructor
  · intro hmem
    have := (select_includes_iff_differs ⟨[]⟩ "Query" "container"
      [⟨"x", .str "a", .str "a"⟩, ⟨"y", .str "b", .atom .missing⟩]
      ⟨"x", .str "a", .str "a"⟩ (by simp) (by simp)).2.1.mp hmem
    exact this rfl
  · exact (select_includes_iff_differs ⟨[]⟩ "Query" "container"
      [⟨"x", .str "a", .str "a"⟩, ⟨"y", .str "b", .atom .missing⟩]
      ⟨"y", .str "b", .atom .missing⟩ (by simp) (by simp)).2.1.mpr (by decide)

/-- C5: after `resolve_ids`, the chain has the same nodes, and on every node
each argument slot holds the resolved form of its old value in place:
a handle argument now holds the scalar identifier its own fetch-my-id chain
returns, and inside a sequence-valued argument every element's identifier is
written back at that element's original index, preserving order. -/
theorem resolve_ids_spec (c : Context) (i : Nat)
    (hi : i < c.selections.length)
    (h2 : i < (c.resolve_ids).selections.length) :
    (c.resolve_ids).selections.length = c.selections.length
    ∧ ((c.resolve_ids).selections[i]).name = (c.selections[i]).name
    ∧ ((c.resolve_ids).selections[i]).args
        = (c.selections[i]).args.map (fun kv => (kv.1, resolveValue kv.2))
    ∧ (∀ k id_, (k, Value.atom (.idHandle id_)) ∈ (c.selections[i]).args →
        (k, Value.atom (.str id_)) ∈ ((c.resolve_ids).selections[i]).args)
    ∧ (∀ id_, resolveValue (.atom (.idHandle id_)) = .atom (.str id_))
    ∧ (∀ vs, resolveValue (.list vs) = .list (vs.map resolveElem))
    ∧ (∀ (vs : List Value) (j : Nat) (hj : j < vs.length)
        (hj2 : j < (vs.map resolveElem).length),
        (vs.map resolveElem)[j] = resolveElem (vs[j])) := by
  have hmap : (c.resolve_ids).selections = c.selections.map Field.resolveArgs := rfl
  have hargs : ∀ f : Field,
      (Field.resolveArgs f).args = f.args.map fun kv => (kv.1, resolveValue kv.2) := by
    intro f; cases f; rfl
  have hname : ∀ f : Field, (Field.resolveArgs f).name = f.name := by
    intro f; cases f; rfl
  refine ⟨by simp [hmap], ?_, ?_, ?_, fun _ => rfl, fun _ => rfl, ?_⟩
  · simp [hmap, hname]
  · simp [hmap, hargs]
  · intro k id_ hmem
    have : ((c.resolve_ids).selections[i]).args
        = (c.selections[i]).args.map fun kv => (kv.1, resolveValue kv.2) := by
      simp [hmap, hargs]
    rw [this]
    exact List.mem_map.mpr ⟨(k, .atom (.idHandle id_)), hmem, rfl⟩
  · intro vs j hj hj2
    simp

/-- C5 witness: a two-node chain with a bare handle argument and a
sequence-valued argument mixing a handle and a plain string resolves both in
place, keeping the sequence order. -/
theorem resolve_ids_spec_witness :
    (Context.resolve_ids
        ⟨[Field.mk "Query" "container" [("from", .atom (.idHandle "id1"))] [],
          Field.mk "Container" "withMounts"
            [("mounts", .list [.atom (.idHandle "id2"), .str "plain"])] []]⟩).selections
      = [Field.mk "Query" "container" [("from", .str "id1")] [],
          Field.mk "Container" "withMounts"
            [("mounts", .list [.str "id2", .str "plain"])] []]
    ∧ (Context.resolve_ids
        ⟨[Field.mk "Query" "container" [("from", .atom (.idHandle "id1"))] [],
          Field.mk "Container" "withMounts"
            [("mounts", .list [.atom (.idHandle "id2"), .str "plain"])] []]⟩).selections.length
      = 2 := by
  have h := resolve_ids_spec
    ⟨[Field.mk "Query" "container" [("from", .atom (.idHandle "id1"))] [],
      Field.mk "Container" "withMounts"
        [("mounts", .list [.atom (.idHandle "id2"), .str "plain"])] []]⟩
    0 (by simp) (by simp [Context.resolve_ids])
  exact ⟨rfl, h.1⟩

/-- C6: on a chain that compiles, `execute` maps every transport failure to
its domain error kind: a timeout raises the Timeout error with its
remediation hint, a request-level error, a closed connection and a
protocol/server-level structural error each raise a Transport error wrapping
the cause, a structured query error with a derivable payload raises the
derived Query error, and a non-derivable one re-raises the raw transport
query error unchanged. -/
theorem execute_failure_mapping (c : Context) (h : c.selections ≠ [])
    (cause raw d : String) (rt : Option RetTy) :
    c.execute .timeout rt = .error (.executeTimeout
      ("Request timed out. Try setting a higher value in \x27execute_timeout\x27 "
        ++ "config for this `dagger.Connection()`."))
    ∧ c.execute (.requestError cause) rt
        = .error (.transport ("Failed to make request: " ++ cause))
    ∧ c.execute .closed rt = .error (.transport
        ("Connection to engine has been closed. Make sure you\x27re "
          ++ "calling the API within a `dagger.Connection()` context."))
    ∧ c.execute (.protocolError cause) rt
        = .error (.transport ("Unexpected response from engine: " ++ cause))
    ∧ c.execute (.serverError cause) rt
        = .error (.transport ("Unexpected response from engine: " ++ cause))
    ∧ c.execute (.queryError (some d) raw) rt = .error (.queryError d)
    ∧ c.execute (.queryError none raw) rt = .error (.rawQueryError raw) := by
  have hne : (c.resolve_ids).selections ≠ [] := by
    simpa [Context.resolve_ids] using h
  obtain ⟨root, hroot⟩ := build_ok_of_ne_nil _ hne
  refine ⟨?_, ?_, ?_, ?_, ?_, ?_, ?_⟩ <;> simp [Context.execute, hroot]

/-- C6 witness: the mapping at the concrete three-node chain with concrete
causes. -/
theorem execute_failure_mapping_witness :
    containerIdChain.execute .timeout none = .error (.executeTimeout
      ("Request timed out. Try setting a higher value in \x27execute_timeout\x27 "
        ++ "config for this `dagger.Connection()`."))
    ∧ containerIdChain.execute (.requestError "boom") none
        = .error (.transport ("Failed to make request: " ++ "boom"))
    ∧ containerIdChain.execute (.queryError (some "bad field") "raw") none
        = .error (.queryError "bad field")
    ∧ containerIdChain.execute (.queryError none "raw") none
        = .error (.rawQueryError "raw") := by
  have h := execute_failure_mapping containerIdChain (by simp [containerIdChain,
    Context.select]) "boom" "raw" "bad field" none
  exact ⟨h.1, h.2.1, h.2.2.2.2.2.1, h.2.2.2.2.2.2⟩

/-- C7: when the response walk ends at null, `get_value` raises the
validation error exactly when the expected type does not accept null, and
decoding null against an explicitly nullable expected type succeeds and
yields null. -/
theorem get_value_null_validation (c : Context) (v : Value) (rt : RetTy)
    (hw : walkValue c.selections v = .ok (.atom .null)) :
    (rt.acceptsNull = false →
      c.get_value v rt = .error (.invalidQuery
        "Required field got a null response. Check if parent fields are valid."))
    ∧ (rt.acceptsNull = true →
      c.get_value v rt = .ok .null) := by
  constructor
  · intro hn
    simp [Context.get_value, hw, hn]
  · intro hy
    cases rt with
    | optional t =>
        simp [Context.get_value, hw, convStructure, Value.null, RetTy.acceptsNull]
    | string => cases hy
    | int => cases hy
    | bool => cases hy
    | objType n => cases hy

/-- C7 witness: a one-node chain whose payload holds null under the node's
key — the validation error for expected type string, a null result for
expected type optional string. -/
theorem get_value_null_validation_witness :
    (Context.mk [Field.mk "Query" "container" [] []]).get_value
        (.obj [("container", .atom .null)]) .string
      = .error (.invalidQuery
          "Required field got a null response. Check if parent fields are valid.")
    ∧ (Context.mk [Field.mk "Query" "container" [] []]).get_value
        (.obj [("container", .atom .null)]) (.optional .string)
      = .ok .null :=
  ⟨(get_value_null_validation ⟨[Field.mk "Query" "container" [] []]⟩
      (.obj [("container", .atom .null)]) .string (by rfl)).1 rfl,
    (get_value_null_validation ⟨[Field.mk "Query" "container" [] []]⟩
      (.obj [("container", .atom .null)]) (.optional .string) (by rfl)).2 rfl⟩

/-- C8: on a non-empty chain, `select_multiple` replaces — never merges —
the children of the last node with exactly one leaf per entry of the field
map, keyed by output alias, carrying the wire field name, no arguments and
no children; the rest of the chain is untouched, and a second
`select_multiple` leaves only its own aliases on the last node. -/
theorem select_multiple_replaces (c : Context) (h : c.selections ≠ [])
    (t t2 : String) (fs fs2 : List (String × String)) :
    ∃ parent c2, c.selections.getLast? = some parent
      ∧ c.select_multiple t fs = some c2
      ∧ c2.selections = c.selections.dropLast
          ++ [Field.mk parent.type_name parent.name parent.args
                (fs.map fun kv => (kv.1, Field.mk t kv.2 [] []))]
      ∧ (∃ c3, c2.select_multiple t2 fs2 = some c3
          ∧ c3.selections = c.selections.dropLast
              ++ [Field.mk parent.type_name parent.name parent.args
                    (fs2.map fun kv => (kv.1, Field.mk t2 kv.2 [] []))]) := by
  obtain ⟨parent, hp⟩ := Option.isSome_iff_exists.mp (List.getLast?_isSome.mpr h)
  refine ⟨parent,
    ⟨c.selections.dropLast ++ [Field.mk parent.type_name parent.name parent.args
      (fs.map fun kv => (kv.1, Field.mk t kv.2 [] []))]⟩, hp, ?_, rfl, ?_⟩
  · unfold Context.select_multiple
    rw [hp]
  · refine ⟨⟨c.selections.dropLast
        ++ [Field.mk parent.type_name parent.name parent.args
              (fs2.map fun kv => (kv.1, Field.mk t2 kv.2 [] []))]⟩, ?_, rfl⟩
    unfold Context.select_multiple
    rw [List.getLast?_concat]
    simp [Field.type_name, Field.name, Field.args, List.dropLast_concat]

/-- C8 witness: applying `select_multiple` twice in a row to the concrete
three-node chain leaves only the second call's aliases on the last node. -/
theorem select_multiple_replaces_witness :
    ∃ parent c2, containerIdChain.selections.getLast? = some parent
      ∧ containerIdChain.select_multiple "Container"
          [("a", "stdout"), ("b", "stderr")] = some c2
      ∧ c2.selections = containerIdChain.selections.dropLast
          ++ [Field.mk parent.type_name parent.name parent.args
                ([("a", "stdout"), ("b", "stderr")].map
                  fun kv => (kv.1, Field.mk "Container" kv.2 [] []))]
      ∧ (∃ c3, c2.select_multiple "Container" [("c", "name")] = some c3
          ∧ c3.selections = containerIdChain.selections.dropLast
              ++ [Field.mk parent.type_name parent.name parent.args
                    ([("c", "name")].map
                      fun kv => (kv.1, Field.mk "Container" kv.2 [] []))]) :=
  select_multiple_replaces containerIdChain
    (by simp [containerIdChain, Context.select]) "Container" "Container"
    [("a", "stdout"), ("b", "stderr")] [("c", "name")]

/-- C9: root-level object materialization from a raw identifier fails with
the construction-type error when the target type does not support id-based
construction, likewise when the identifier is a typed scalar of a different
type than the target's declared id type, and otherwise returns a handle of
the target type bound to a fresh one-node selection on the load-by-id field
carrying the identifier as its only argument. -/
theorem get_object_instance_spec (cls : TargetType) (id_ : IdArg) :
    (cls.supports_id = false →
      Root.get_object_instance cls id_
        = .error (.typeError ("Unsupported type \x27" ++ cls.name ++ "\x27")))
    ∧ (cls.supports_id = true → id_.typeMismatch cls = true →
        id_.isRawString = false →
      Root.get_object_instance cls id_
        = .error (.typeError ("Expected id type \x27" ++ cls.id_type
            ++ "\x27, got \x27" ++ id_.typeName ++ "\x27")))
    ∧ (cls.supports_id = true →
        (id_.typeMismatch cls = false ∨ id_.isRawString = true) →
      Root.get_object_instance cls id_
        = .ok (cls, ⟨[Field.mk "Query" cls.from_id_query_field
            [("id", id_.toValue)] []]⟩)) := by
  refine ⟨?_, ?_, ?_⟩
  · intro hno
    simp [Root.get_object_instance, hno]
  · intro hyes hmis hraw
    simp [Root.get_object_instance, hyes, hmis, hraw]
  · intro hyes hok
    have hnot : ¬(id_.typeMismatch cls = true ∧ id_.isRawString = false) := by
      rcases hok with h1 | h1 <;> simp [h1]
    have henc : encodeArgs [{ name := "id", value := id_.toValue }]
        = [("id", id_.toValue)] := by
      cases id_ <;> rfl
    simp only [Root.get_object_instance, hyes, Bool.true_eq_false, if_false,
      hnot, if_false, Context.select, henc]
    rfl

/-- C9 witness: the three outcomes at concrete types and identifiers — an
unsupported target, a mismatched typed scalar, and a successful raw-string
construction. -/
theorem get_object_instance_spec_witness :
    Root.get_object_instance ⟨"Secret", false, "SecretID", "loadSecretFromID"⟩
        (.rawString "abc")
      = .error (.typeError ("Unsupported type \x27" ++ "Secret" ++ "\x27"))
    ∧ Root.get_object_instance ⟨"Container", true, "ContainerID", "loadContainerFromID"⟩
        (.scalar "FileID" "abc")
      = .error (.typeError ("Expected id type \x27" ++ "ContainerID"
          ++ "\x27, got \x27" ++ "FileID" ++ "\x27"))
    ∧ Root.get_object_instance ⟨"Container", true, "ContainerID", "loadContainerFromID"⟩
        (.rawString "abc")
      = .ok (⟨"Container", true, "ContainerID", "loadContainerFromID"⟩,
          ⟨[Field.mk "Query" "loadContainerFromID" [("id", .str "abc")] []]⟩) :=
  ⟨(get_object_instance_spec ⟨"Secret", false, "SecretID", "loadSecretFromID"⟩
      (.rawString "abc")).1 rfl,
    (get_object_instance_spec ⟨"Container", true, "ContainerID", "loadContainerFromID"⟩
      (.scalar "FileID" "abc")).2.1 rfl rfl rfl,
    (get_object_instance_spec ⟨"Container", true, "ContainerID", "loadContainerFromID"⟩
      (.rawString "abc")).2.2 rfl (Or.inr rfl)⟩

/-- C10: whenever the response walk reaches a mapping that lacks the current
selection node's field name, `get_value` surfaces the uncaught `KeyError`
for that name rather than a domain error: the stop-descending guard only
checks non-mapping values before indexing, so a mapping missing a chain key
is never caught. -/
theorem get_value_key_error (c : Context) (v : Value) (rt : RetTy)
    (pre post : List Field) (f : Field) (kvs : List (String × Value))
    (hsel : c.selections = pre ++ f :: post)
    (hwalk : walkValue pre v = .ok (.obj kvs))
    (hmiss : kvs.lookup f.name = none) :
    c.get_value v rt = .error (.keyError f.name) := by
  have hfull : walkValue c.selections v = .error (.keyError f.name) := by
    rw [hsel, walkValue_append, hwalk]
    simp [Except.bind, walkValue, hmiss]
  simp [Context.get_value, hfull]

/-- C10 witness: a one-node chain against a mapping payload that lacks the
node's key surfaces `KeyError "container"`. -/
theorem get_value_key_error_witness :
    (Context.mk [Field.mk "Query" "container" [] []]).get_value
        (.obj [("other", .str "x")]) .string
      = .error (.keyError "container") :=
  get_value_key_error ⟨[Field.mk "Query" "container" [] []]⟩
    (.obj [("other", .str "x")]) .string [] []
    (Field.mk "Query" "container" [] []) [("other", .str "x")] rfl rfl rfl

end DaggerCore
